import Mathlib

/-!
Verification of the turn engine of the "AI Guess Who?" browser game.

The definitions below are a shallow embedding of the game logic found in
`src/hooks/useGameLogic.ts` and `src/services/ai/timeout.ts` of the
repository.  Model calls (the on-device language model) are represented as
oracle parameters, since their outputs are adversarial from the point of
view of the engine.  The engine itself is deterministic; its functions are
translated here as pure functions on an explicit `GameSession` record.
-/

namespace GuessWho

/-- Message senders, from `types.ts`. -/
inductive Sender
  | PLAYER
  | AI
  | SYSTEM
  deriving Repr, DecidableEq

/-- A chat message, from `types.ts`. -/
structure Message where
  sender : Sender
  text : String
  deriving Repr, DecidableEq

/-- The UI state machine states, from `types.ts` (variant with review mode). -/
inductive GameState
  | SETUP
  | CUSTOM_SETUP
  | PLAYER_TURN_ASKING
  | PLAYER_TURN_ELIMINATING
  | AI_TURN
  | PLAYER_REVIEWING_AI_ANALYSIS
  | AI_TURN_WAITING_FOR_ANSWER
  | GAME_OVER
  deriving Repr, DecidableEq

/-- Possible winners; the session stores `Option GameWinner` (null = none). -/
inductive GameWinner
  | PLAYER
  | AI
  deriving Repr, DecidableEq

/-- A playable character, from `types.ts`.  The opaque image blob is modelled
by a flag recording whether the blob is present, which is all the engine
inspects (`!c.imageBlob`). -/
structure Character where
  id : String
  name : String
  imageBlob : Bool
  deriving Repr, DecidableEq

/-- One per-candidate judgment from the model, from `types.ts`. -/
structure EliminationAnalysisResult where
  id : String
  name : String
  has_feature : Bool
  reasoning : String
  deriving Repr, DecidableEq

/-- The model response for the combined question+analysis call, from `types.ts`. -/
structure AIQuestionAndAnalysis where
  question : String
  analysis : List EliminationAnalysisResult
  deriving Repr, DecidableEq

/-- The player answer passed to `handlePlayerAnswer` ("Yes" | "No"). -/
inductive Answer
  | Yes
  | No
  deriving Repr, DecidableEq

/-- The aggregate game state held by the `useGameLogic` hook (the fields the
turn logic reads or writes). -/
structure GameSession where
  gameState : GameState
  activeCharacters : List Character
  playerSecret : Option Character
  aiSecret : Option Character
  messages : List Message
  winner : Option GameWinner
  winReason : String
  aiRemainingChars : List Character
  lastAIQuestion : String
  lastAIAnalysis : List EliminationAnalysisResult
  isAIFinalGuess : Bool
  isReviewModeEnabled : Bool
  deriving Repr, DecidableEq

/-! ### The final-guess pattern

`useGameLogic.ts` line 14:

  `/^(?:is it|is the person|is the character|is your? character)\s+(.*?)\??$/i`

applied to `text.trim()`, with the capture further trimmed by the callers.
The JavaScript regex is embedded as a direct matcher.  The alternatives are
literal and mutually exclusive, `\s+` is greedy, the capture group `(.*?)`
is lazy followed by `\??$`, so the capture is the tail with at most one
trailing question mark removed, and `.` rejects line terminators. -/

/-- JavaScript `\s` / `String.prototype.trim` whitespace (the ASCII part). -/
def isWsChar (c : Char) : Bool :=
  c == ' ' || c == '\t' || c == '\n' || c == '\r' || c == '\x0b' || c == '\x0c'

/-- Characters matched by `.` in a JavaScript regex (no line terminators). -/
def isDotChar (c : Char) : Bool :=
  !(c == '\n' || c == '\r' || c == '\u2028' || c == '\u2029')

/-- `String.prototype.trim` on a character list. -/
def jsTrim (s : List Char) : List Char :=
  ((s.dropWhile isWsChar).reverse.dropWhile isWsChar).reverse

/-- `String.prototype.trim`. -/
def jsTrimStr (s : String) : String :=
  String.mk (jsTrim s.data)

/-- `String.prototype.toLowerCase` (per-character, faithful on ASCII). -/
def lowerStr (s : String) : String :=
  String.mk (s.data.map Char.toLower)

/-- Strip a literal pattern (given in lower case) from the front of a string,
comparing case-insensitively; returns the remaining characters of the
original string. -/
def stripLitCI : List Char → List Char → Option (List Char)
  | [], rest => some rest
  | _ :: _, [] => none
  | p :: ps, c :: cs => if c.toLower == p then stripLitCI ps cs else none

/-- Match `\s+(.*?)\??$` against the characters following one of the literal
alternatives: require at least one whitespace character, drop the greedy
whitespace run, remove at most one trailing question mark (the lazy group
prefers the smaller capture), and require every captured character to be
matchable by `.`. -/
def captureTail : List Char → Option (List Char)
  | [] => none
  | c :: cs =>
    if isWsChar c then
      let body := cs.dropWhile isWsChar
      let cap := match body.reverse with
        | '?' :: rs => rs.reverse
        | _ => body
      if cap.all isDotChar then some cap else none
    else none

/-- Try each literal alternative, in order, against the trimmed input. -/
def matchAlts (alts : List String) (q : String) : Option (List Char) :=
  let t := jsTrim q.data
  alts.foldr (fun a acc => ((stripLitCI a.data t).bind captureTail).orElse (fun _ => acc)) none

/-- The alternatives of `FINAL_GUESS_REGEX`: `is your? character` expands to
the two literals with and without the `r`. -/
def finalGuessAlts : List String :=
  ["is it", "is the person", "is the character", "is your character", "is you character"]

/-- The full `FINAL_GUESS_REGEX` match on `text.trim()`, returning the
capture group (the guessed name, untrimmed). -/
def finalGuessMatch (q : String) : Option String :=
  (matchAlts finalGuessAlts q).map (fun l => String.mk l)

/-! ### The turn engine operations (`useGameLogic.ts`) -/

/-- Text of the PLAYER message appended when answering ("Yes" | "No"). -/
def answerText : Answer → String
  | Answer.Yes => "Yes"
  | Answer.No => "No"

/-- Shorthand for an AI chat message. -/
def aiMsg (t : String) : Message :=
  { sender := Sender.AI, text := t }

/-- Shorthand for a SYSTEM chat message. -/
def sysMsg (t : String) : Message :=
  { sender := Sender.SYSTEM, text := t }

/-- Shorthand for a PLAYER chat message. -/
def playerMsg (t : String) : Message :=
  { sender := Sender.PLAYER, text := t }

/-- `handlePlayerQuestion` (`useGameLogic.ts` lines 225-286).  The model call
`geminiService.getAnswerToPlayerQuestion` is an oracle parameter: `ok a`
models a successful answer string, `error e` a rejected promise. -/
def handlePlayerQuestion (s : GameSession) (question : String)
    (modelAnswer : Except String String) : GameSession :=
  if question = "" ∨ s.aiSecret = none then s
  else
    match s.aiSecret with
    | none => s
    | some secret =>
      let s1 : GameSession :=
        { s with messages := s.messages ++ [playerMsg question] }
      let normalQuestion : GameSession :=
        match modelAnswer with
        | Except.ok ans =>
          { s1 with
            messages := s1.messages ++
              [aiMsg ans,
               sysMsg ("You can now eliminate characters. Click \x27End Turn\x27 when ready.")],
            gameState := GameState.PLAYER_TURN_ELIMINATING }
        | Except.error _ =>
          { s1 with
            messages := s1.messages ++
              [sysMsg ("Sorry, I had trouble answering. Please try again.")] }
      match finalGuessMatch question with
      | none => normalQuestion
      | some cap =>
        let guessedName := jsTrimStr cap
        if s.activeCharacters.any (fun c => lowerStr c.name == lowerStr guessedName) then
          if lowerStr guessedName = lowerStr secret.name then
            { s1 with
              messages := s1.messages ++ [aiMsg (("Yes, it is ") ++ secret.name ++ ("!"))],
              winner := some GameWinner.PLAYER,
              winReason := ("You correctly guessed the character was ") ++ secret.name ++ ("."),
              gameState := GameState.GAME_OVER }
          else
            { s1 with
              messages := s1.messages ++
                [aiMsg (("No, it is not ") ++ guessedName ++ (".")),
                 sysMsg (("You guessed incorrectly! The secret character was ") ++ secret.name ++ ("."))],
              winner := some GameWinner.AI,
              winReason := ("You guessed incorrectly. The secret character was ") ++ secret.name ++ ("."),
              gameState := GameState.GAME_OVER }
        else normalQuestion

/-- The elimination set built by `handlePlayerAnswer` (lines 342-358): the ids
of the analysis entries without the feature on a Yes answer, with the feature
on a No answer, collected into a JavaScript `Set`. -/
def computeEliminatedIds (analysis : List EliminationAnalysisResult) (answer : Answer) :
    Finset String :=
  let elim : List EliminationAnalysisResult :=
    match answer with
    | Answer.Yes => analysis.filter (fun c => !c.has_feature)
    | Answer.No => analysis.filter (fun c => c.has_feature)
  (elim.map (fun c => c.id)).toFinset

/-- The final-guess resolution inside `handlePlayerAnswer` (lines 316-335),
reached when `isAIFinalGuess` is set and a name was parsed out of
`lastAIQuestion`. -/
def finalGuessResolve (s : GameSession) (ps : Character) (guessedName : String)
    (answer : Answer) : GameSession :=
  if lowerStr guessedName = lowerStr ps.name ∧ answer = Answer.Yes then
    { s with
      winner := some GameWinner.AI,
      winReason := ("It correctly guessed your character was ") ++ ps.name ++ ("."),
      gameState := GameState.GAME_OVER }
  else if ¬(lowerStr guessedName = lowerStr ps.name) ∧ answer = Answer.No then
    { s with
      winner := some GameWinner.PLAYER,
      winReason := ("The AI guessed ") ++ guessedName ++ (" incorrectly! You win!"),
      gameState := GameState.GAME_OVER }
  else
    { s with
      winner := some GameWinner.AI,
      winReason :=
        ("There was a mismatch in the final guess. Your card was ") ++ ps.name ++
          (". The AI wins."),
      gameState := GameState.GAME_OVER }

/-- The elimination step of `handlePlayerAnswer` (lines 341-397): compute the
elimination set from the stored analysis, veto it when it would wipe the
board, otherwise filter the remaining candidates and detect the
all-eliminated-by-mistake loss. -/
def applyElimination (s : GameSession) (answer : Answer) : GameSession :=
  let eliminatedIds := computeEliminatedIds s.lastAIAnalysis answer
  if eliminatedIds.card = s.aiRemainingChars.length ∧ 0 < s.aiRemainingChars.length then
    { s with
      messages := s.messages ++
        [sysMsg ("The AI got confused and almost eliminated everyone! No one was eliminated.")],
      gameState := GameState.PLAYER_TURN_ASKING }
  else
    let eliminatedNames :=
      String.intercalate (", ")
        ((s.aiRemainingChars.filter (fun c => decide (c.id ∈ eliminatedIds))).map
          (fun c => c.name))
    let s2 :=
      if eliminatedNames ≠ "" then
        { s with messages := s.messages ++ [sysMsg (("AI eliminated: ") ++ eliminatedNames ++ ("."))] }
      else
        { s with messages := s.messages ++ [sysMsg ("AI did not eliminate anyone based on that answer.")] }
    let newRemainingChars := s.aiRemainingChars.filter (fun c => decide (c.id ∉ eliminatedIds))
    if newRemainingChars = [] then
      { s2 with
        aiRemainingChars := newRemainingChars,
        winner := some GameWinner.PLAYER,
        winReason := ("The AI eliminated all its characters by mistake! You win!"),
        gameState := GameState.GAME_OVER }
    else
      { s2 with
        aiRemainingChars := newRemainingChars,
        gameState := GameState.PLAYER_TURN_ASKING }

/-- `handlePlayerAnswer` (`useGameLogic.ts` lines 306-401). -/
def handlePlayerAnswer (s : GameSession) (answer : Answer) : GameSession :=
  if s.lastAIQuestion = "" ∨ s.playerSecret = none then s
  else
    match s.playerSecret with
    | none => s
    | some ps =>
      let s1 : GameSession :=
        { s with messages := s.messages ++ [playerMsg (answerText answer)] }
      let guessedName : String :=
        match finalGuessMatch s.lastAIQuestion with
        | some cap => jsTrimStr cap
        | none => ""
      if s.isAIFinalGuess ∧ guessedName ≠ "" then
        finalGuessResolve s1 ps guessedName answer
      else
        applyElimination s1 answer

/-! ### The AI turn (`useGameLogic.ts` lines 416-513) -/

/-- The error message thrown for a non-discriminating analysis. -/
def nonDiscrimErr : String :=
  "AI generated a non-discriminatory question."

/-- The retry reason recorded for a non-discriminating analysis. -/
def nonDiscrimRetryReason : String :=
  "The last question you asked was invalid because it did not eliminate any characters. You must ask a question that splits the remaining characters."

/-- The retry reason recorded for any other failure of the model call. -/
def genericRetryReason (e : String) : String :=
  ("The last attempt failed with an error: ") ++ e ++
    (". Please try generating a completely different question.")

/-- `MAX_AI_RETRIES` (line 445). -/
def MAX_AI_RETRIES : Nat := 3

/-- The state reached when all retries are exhausted (lines 498-508). -/
def concedeTurn (s : GameSession) : GameSession :=
  { s with
    messages := s.messages ++ [sysMsg ("The AI is having trouble thinking. Your turn!")],
    gameState := GameState.PLAYER_TURN_ASKING }

/-- A successful attempt: store the question and analysis and move to review
or directly to waiting for the answer (lines 464-489). -/
def aiTurnSuccess (s : GameSession) (r : AIQuestionAndAnalysis) : GameSession :=
  let s1 := { s with lastAIQuestion := r.question, lastAIAnalysis := r.analysis }
  if s.isReviewModeEnabled then
    { s1 with
      messages := s1.messages ++
        [aiMsg r.question,
         sysMsg ("Here is how the AI analyzed the remaining characters. Review its work, then click \x27Continue\x27 to provide your answer.")],
      gameState := GameState.PLAYER_REVIEWING_AI_ANALYSIS }
  else
    { s1 with
      messages := s1.messages ++ [aiMsg r.question, sysMsg ("It\x27s your turn to answer.")],
      gameState := GameState.AI_TURN_WAITING_FOR_ANSWER }

/-- The retry loop of `handleAITurn` (lines 448-510).  `oracle k rr` is the
result of `geminiService.getAIQuestionAndAnalysis` at attempt `k` when
called with retry reason `rr`; `error e` models a rejected promise with
message `e`.  Besides the final state, the trace of `(attempt, retryReason)`
pairs actually passed to the model is returned.  The fuel argument equals
the number of remaining loop iterations and is structurally decreasing. -/
def aiTurnLoop (oracle : Nat → Option String → Except String AIQuestionAndAnalysis) :
    GameSession → Nat → Nat → Option String → GameSession × List (Nat × Option String)
  | s, _, 0, _ => (s, [])
  | s, attempt, fuel + 1, rr =>
    match oracle attempt rr with
    | Except.error e =>
      let rr2 := if e = nonDiscrimErr then rr else some (genericRetryReason e)
      if attempt = MAX_AI_RETRIES then (concedeTurn s, [(attempt, rr)])
      else
        let next := aiTurnLoop oracle s (attempt + 1) fuel rr2
        (next.1, (attempt, rr) :: next.2)
    | Except.ok r =>
      let positiveFeatures := (r.analysis.filter (fun res => res.has_feature)).length
      if positiveFeatures = 0 ∨ positiveFeatures = r.analysis.length then
        if attempt = MAX_AI_RETRIES then (concedeTurn s, [(attempt, rr)])
        else
          let next := aiTurnLoop oracle s (attempt + 1) fuel (some nonDiscrimRetryReason)
          (next.1, (attempt, rr) :: next.2)
      else
        (aiTurnSuccess s r, [(attempt, rr)])

/-- `handleAITurn` (`useGameLogic.ts` lines 416-513): the effect that runs
when the state reaches AI_TURN.  Returns the new session and the trace of
model calls `(attempt, retryReason)` made. -/
def handleAITurn (s : GameSession)
    (oracle : Nat → Option String → Except String AIQuestionAndAnalysis) :
    GameSession × List (Nat × Option String) :=
  if s.gameState = GameState.AI_TURN then
    let s0 := { s with isAIFinalGuess := false }
    match s0.aiRemainingChars with
    | [c] =>
      let guess := ("Is your character ") ++ c.name ++ ("?")
      ({ s0 with
          lastAIQuestion := guess,
          isAIFinalGuess := true,
          messages := s0.messages ++ [aiMsg guess],
          gameState := GameState.AI_TURN_WAITING_FOR_ANSWER }, [])
    | [] =>
      ({ s0 with
          winner := some GameWinner.PLAYER,
          winReason := ("The AI ran out of characters to guess from!"),
          gameState := GameState.GAME_OVER }, [])
    | _ => aiTurnLoop oracle s0 1 MAX_AI_RETRIES none
  else (s, [])

/-- The final-guess question constructed by `handleAITurn` (line 426). -/
def mkAIFinalGuess (name : String) : String :=
  ("Is your character ") ++ name ++ ("?")

/-- `startGame` (`useGameLogic.ts` lines 132-180).  The two calls to
`Math.random` are modelled by the chosen indices: `pIdx` is the player draw
and `aIdx` the value of `aiIndex` when the do-while loop exits, so
`aIdx ≠ pIdx` holds by the loop guard.  The session-reset side effect on the
model gateway is outside the embedded state. -/
def startGame (s : GameSession) (characterSet : List Character) (pIdx aIdx : Nat)
    (hp : pIdx < characterSet.length) (ha : aIdx < characterSet.length) : GameSession :=
  if characterSet.any (fun c => !c.imageBlob) then
    { s with gameState := GameState.SETUP }
  else
    let pSecret := characterSet.get ⟨pIdx, hp⟩
    let aSecret := characterSet.get ⟨aIdx, ha⟩
    { s with
      activeCharacters := characterSet,
      aiRemainingChars := characterSet,
      playerSecret := some pSecret,
      aiSecret := some aSecret,
      messages :=
        [sysMsg (("New game started. You drew ") ++ pSecret.name ++
          (". It\x27s your turn to ask a question."))],
      winner := none,
      winReason := "",
      isAIFinalGuess := false,
      gameState := GameState.PLAYER_TURN_ASKING }

/-! ### Derived predicates -/

/-- The degeneracy test of `handleAITurn` (lines 457-458): every entry has
the feature, or no entry does. -/
def isDegenerate (analysis : List EliminationAnalysisResult) : Prop :=
  (analysis.filter (fun res => res.has_feature)).length = 0 ∨
    (analysis.filter (fun res => res.has_feature)).length = analysis.length

instance (analysis : List EliminationAnalysisResult) : Decidable (isDegenerate analysis) := by
  unfold isDegenerate
  infer_instance

/-- The `has_feature` value that causes elimination for a given answer. -/
def elimFlag : Answer → Bool
  | Answer.Yes => false
  | Answer.No => true

/-- The classification test of `handlePlayerQuestion` (lines 250-256): the
text matches `FINAL_GUESS_REGEX` and the trimmed capture equals, up to case,
the name of some active character. -/
def classifiedAsFinalGuess (active : List Character) (q : String) : Bool :=
  match finalGuessMatch q with
  | some cap => active.any (fun c => lowerStr c.name == lowerStr (jsTrimStr cap))
  | none => false

/-- Modelled from the spec (claim C4): the final-guess pattern exactly as the
claim words it, `"is (it|the person|the character|your character) <NAME>"`,
which omits the `is you character` form accepted by the implemented
`FINAL_GUESS_REGEX`. -/
def claimFinalGuessAlts : List String :=
  ["is it", "is the person", "is the character", "is your character"]

/-- The match function of the claim-stated pattern of C4. -/
def claimFinalGuessMatch (q : String) : Option String :=
  (matchAlts claimFinalGuessAlts q).map (fun l => String.mk l)

/-! ### Concrete fixtures (the characters of the spec scenarios) -/

/-- Fixture character. -/
def alex : Character := { id := "alex", name := "Alex", imageBlob := true }

/-- Fixture character. -/
def bella : Character := { id := "bella", name := "Bella", imageBlob := true }

/-- Fixture character. -/
def cid : Character := { id := "cid", name := "Cid", imageBlob := true }

/-- Fixture character. -/
def dana : Character := { id := "dana", name := "Dana", imageBlob := true }

/-- Fixture character. -/
def eli : Character := { id := "eli", name := "Eli", imageBlob := true }

/-- A mid-game session fixture used by the concrete witnesses; individual
claims override the fields they depend on. -/
def baseSession : GameSession :=
  { gameState := GameState.PLAYER_TURN_ASKING
    activeCharacters := [alex, bella, cid, dana, eli]
    playerSecret := some bella
    aiSecret := some bella
    messages := []
    winner := none
    winReason := ""
    aiRemainingChars := [alex, bella, cid, dana, eli]
    lastAIQuestion := ""
    lastAIAnalysis := []
    isAIFinalGuess := false
    isReviewModeEnabled := true }

example : finalGuessMatch ("Is it Alex?") = some ("Alex") := by decide
example : finalGuessMatch ("is it Alex??") = some ("Alex?") := by decide
example : finalGuessMatch ("IS YOUR CHARACTER dana") = some ("dana") := by decide
example : finalGuessMatch ("is you character Alex") = some ("Alex") := by decide
example : finalGuessMatch ("is it") = none := by decide
example : finalGuessMatch ("is it ?") = some ("") := by decide
example : finalGuessMatch ("  Is the person  Bella ?  ") = some ("Bella ") := by decide
example : finalGuessMatch ("who is it") = none := by decide
example : finalGuessMatch ("Is your character A\nB?") = none := by decide

/-! ## Claim theorems -/

/-- Claim C8: whenever the AI turn begins with exactly one remaining
candidate, the engine directly emits the final-guess question
"Is your character <name>?", sets `isAIFinalGuess`, appends it as an AI
message, and moves to AI_TURN_WAITING_FOR_ANSWER, skipping the review state
regardless of the review-mode setting and making no model call (the call
trace is empty). -/
theorem aiTurn_single_candidate_final_guess
    (s : GameSession) (oracle : Nat → Option String → Except String AIQuestionAndAnalysis)
    (c : Character) (hst : s.gameState = GameState.AI_TURN)
    (hrem : s.aiRemainingChars = [c]) :
    handleAITurn s oracle =
      ({ s with
          lastAIQuestion := mkAIFinalGuess c.name,
          isAIFinalGuess := true,
          messages := s.messages ++ [aiMsg (mkAIFinalGuess c.name)],
          gameState := GameState.AI_TURN_WAITING_FOR_ANSWER }, []) := by
  simp [handleAITurn, hst, hrem, mkAIFinalGuess]

/-- Concrete witness for C8: a session in AI_TURN with only Dana left. -/
def c8Session : GameSession :=
  { baseSession with
    gameState := GameState.AI_TURN
    aiRemainingChars := [dana]
    playerSecret := some dana }

/-- Witness for C8 at a concrete session with review mode enabled. -/
theorem aiTurn_single_candidate_final_guess_witness :
    c8Session.gameState = GameState.AI_TURN ∧
    c8Session.aiRemainingChars = [dana] ∧
    c8Session.isReviewModeEnabled = true ∧
    handleAITurn c8Session (fun _ _ => Except.error ("unused")) =
      ({ c8Session with
          lastAIQuestion := mkAIFinalGuess dana.name,
          isAIFinalGuess := true,
          messages := c8Session.messages ++ [aiMsg (mkAIFinalGuess dana.name)],
          gameState := GameState.AI_TURN_WAITING_FOR_ANSWER }, []) :=
  ⟨rfl, rfl, rfl,
    aiTurn_single_candidate_final_guess c8Session (fun _ _ => Except.error ("unused")) dana rfl rfl⟩

/-- Claim C9: after every successful `startGame` on a character set with
unique ids, both secrets are members of the set and their ids differ.  The
indices model the two `Math.random` draws; `hne` is the exit condition of
the do-while loop. -/
theorem startGame_distinct_secrets
    (s : GameSession) (characterSet : List Character) (pIdx aIdx : Nat)
    (hp : pIdx < characterSet.length) (ha : aIdx < characterSet.length)
    (hne : aIdx ≠ pIdx)
    (hids : (characterSet.map (fun c => c.id)).Nodup)
    (hblobs : characterSet.all (fun c => c.imageBlob) = true) :
    ∃ p a,
      (startGame s characterSet pIdx aIdx hp ha).playerSecret = some p ∧
      (startGame s characterSet pIdx aIdx hp ha).aiSecret = some a ∧
      p ∈ characterSet ∧ a ∈ characterSet ∧ p.id ≠ a.id ∧
      (startGame s characterSet pIdx aIdx hp ha).gameState = GameState.PLAYER_TURN_ASKING := by
  have hnoblob : characterSet.any (fun c => !c.imageBlob) = false := by
    simp only [List.all_eq_true] at hblobs
    simp [List.any_eq_true]
    intro c hc
    exact hblobs c hc
  refine ⟨characterSet.get ⟨pIdx, hp⟩, characterSet.get ⟨aIdx, ha⟩, ?_, ?_, ?_, ?_, ?_, ?_⟩
  · simp [startGame, hnoblob]
  · simp [startGame, hnoblob]
  · exact List.get_mem characterSet pIdx hp
  · exact List.get_mem characterSet aIdx ha
  · intro hcontra
    have hp' : pIdx < (characterSet.map (fun c => c.id)).length := by
      simpa using hp
    have ha' : aIdx < (characterSet.map (fun c => c.id)).length := by
      simpa using ha
    have h1 : (characterSet.map (fun c => c.id)).get ⟨pIdx, hp'⟩ =
        (characterSet.map (fun c => c.id)).get ⟨aIdx, ha'⟩ := by
      simpa [List.get_map] using hcontra
    have := (hids.get_inj_iff).mp h1
    exact hne (by simpa using this.symm)
  · simp [startGame, hnoblob]

/-- Witness for C9 at a concrete two-character set. -/
theorem startGame_distinct_secrets_witness :
    ([alex, bella].map (fun c => c.id)).Nodup ∧
    ([alex, bella].all (fun c => c.imageBlob) = true) ∧
    ∃ p a,
      (startGame baseSession [alex, bella] 0 1 (by decide) (by decide)).playerSecret = some p ∧
      (startGame baseSession [alex, bella] 0 1 (by decide) (by decide)).aiSecret = some a ∧
      p ∈ [alex, bella] ∧ a ∈ [alex, bella] ∧ p.id ≠ a.id ∧
      (startGame baseSession [alex, bella] 0 1 (by decide) (by decide)).gameState =
        GameState.PLAYER_TURN_ASKING :=
  ⟨by decide, by decide,
    startGame_distinct_secrets baseSession [alex, bella] 0 1 (by decide) (by decide)
      (by decide) (by decide) (by decide)⟩

/-- Claim C5: a player final guess naming an active character always ends the
game: if the name equals `aiSecret.name` up to case the player wins with a
reason citing the guess, otherwise the AI wins and the reason reveals
`aiSecret.name`. -/
theorem playerFinalGuess_resolution
    (s : GameSession) (q : String) (ma : Except String String)
    (secret : Character) (cap : String)
    (hsec : s.aiSecret = some secret) (hq : q ≠ "")
    (hm : finalGuessMatch q = some cap)
    (hactive : s.activeCharacters.any
      (fun c => lowerStr c.name == lowerStr (jsTrimStr cap)) = true) :
    (handlePlayerQuestion s q ma).gameState = GameState.GAME_OVER ∧
    (lowerStr (jsTrimStr cap) = lowerStr secret.name →
      (handlePlayerQuestion s q ma).winner = some GameWinner.PLAYER ∧
      (handlePlayerQuestion s q ma).winReason =
        ("You correctly guessed the character was ") ++ secret.name ++ (".")) ∧
    (lowerStr (jsTrimStr cap) ≠ lowerStr secret.name →
      (handlePlayerQuestion s q ma).winner = some GameWinner.AI ∧
      (handlePlayerQuestion s q ma).winReason =
        ("You guessed incorrectly. The secret character was ") ++ secret.name ++ (".")) := by
  have hactive' : ∃ x ∈ s.activeCharacters, lowerStr x.name = lowerStr (jsTrimStr cap) := by
    simpa [List.any_eq_true] using hactive
  by_cases hcorrect : lowerStr (jsTrimStr cap) = lowerStr secret.name
  · have hx : ∃ x ∈ s.activeCharacters, lowerStr x.name = lowerStr secret.name := by
      rw [← hcorrect]; exact hactive'
    refine ⟨?_, fun _ => ⟨?_, ?_⟩, fun hc => absurd hcorrect hc⟩ <;>
      simp [handlePlayerQuestion, hq, hsec, hm, hcorrect, hx]
  · refine ⟨?_, fun hc => absurd hc hcorrect, fun _ => ⟨?_, ?_⟩⟩ <;>
      simp [handlePlayerQuestion, hq, hsec, hm, hcorrect, hactive']

/-- Session for the C5 witness: scenario B setup with the AI secret Bella. -/
def c5Session : GameSession :=
  { baseSession with aiSecret := some bella }

/-- Witness for C5: submitting "Is it Alex?" against secret Bella makes the
AI win and the reason reveals Bella. -/
theorem playerFinalGuess_resolution_witness :
    c5Session.aiSecret = some bella ∧
    ("Is it Alex?" ≠ "") ∧
    finalGuessMatch ("Is it Alex?") = some ("Alex") ∧
    (c5Session.activeCharacters.any
      (fun c => lowerStr c.name == lowerStr (jsTrimStr ("Alex"))) = true) ∧
    ((handlePlayerQuestion c5Session ("Is it Alex?") (Except.ok ("No"))).gameState =
        GameState.GAME_OVER ∧
      (lowerStr (jsTrimStr ("Alex")) = lowerStr bella.name →
        (handlePlayerQuestion c5Session ("Is it Alex?") (Except.ok ("No"))).winner =
          some GameWinner.PLAYER ∧
        (handlePlayerQuestion c5Session ("Is it Alex?") (Except.ok ("No"))).winReason =
          ("You correctly guessed the character was ") ++ bella.name ++ (".")) ∧
      (lowerStr (jsTrimStr ("Alex")) ≠ lowerStr bella.name →
        (handlePlayerQuestion c5Session ("Is it Alex?") (Except.ok ("No"))).winner =
          some GameWinner.AI ∧
        (handlePlayerQuestion c5Session ("Is it Alex?") (Except.ok ("No"))).winReason =
          ("You guessed incorrectly. The secret character was ") ++ bella.name ++ ("."))) :=
  ⟨rfl, by decide, by decide, by decide,
    playerFinalGuess_resolution c5Session ("Is it Alex?") (Except.ok ("No")) bella ("Alex")
      rfl (by decide) (by decide) (by decide)⟩

/-- Claim C6: when `isAIFinalGuess` is set and a name is parsed out of
`lastAIQuestion`, the game always ends, with exactly the three outcomes:
correct guess answered Yes gives the AI the win, incorrect guess answered No
gives the player the win, and any other combination gives the AI the win
with a reason flagging the mismatch. -/
theorem aiFinalGuess_answer_outcomes
    (s : GameSession) (answer : Answer) (ps : Character) (cap : String)
    (hps : s.playerSecret = some ps) (hq : s.lastAIQuestion ≠ "")
    (hfg : s.isAIFinalGuess = true)
    (hm : finalGuessMatch s.lastAIQuestion = some cap)
    (hcap : jsTrimStr cap ≠ "") :
    (handlePlayerAnswer s answer).gameState = GameState.GAME_OVER ∧
    (lowerStr (jsTrimStr cap) = lowerStr ps.name ∧ answer = Answer.Yes →
      (handlePlayerAnswer s answer).winner = some GameWinner.AI) ∧
    (lowerStr (jsTrimStr cap) ≠ lowerStr ps.name ∧ answer = Answer.No →
      (handlePlayerAnswer s answer).winner = some GameWinner.PLAYER) ∧
    (¬(lowerStr (jsTrimStr cap) = lowerStr ps.name ∧ answer = Answer.Yes) →
     ¬(lowerStr (jsTrimStr cap) ≠ lowerStr ps.name ∧ answer = Answer.No) →
      (handlePlayerAnswer s answer).winner = some GameWinner.AI ∧
      (handlePlayerAnswer s answer).winReason =
        ("There was a mismatch in the final guess. Your card was ") ++ ps.name ++
          (". The AI wins.")) := by
  have hred : handlePlayerAnswer s answer =
      finalGuessResolve
        { s with messages := s.messages ++ [playerMsg (answerText answer)] }
        ps (jsTrimStr cap) answer := by
    simp [handlePlayerAnswer, hq, hps, hm, hfg, hcap]
  rw [hred]
  by_cases hc1 : lowerStr (jsTrimStr cap) = lowerStr ps.name ∧ answer = Answer.Yes
  · refine ⟨?_, fun _ => ?_, fun hc => absurd hc1.1 hc.1, fun hc _ => absurd hc1 hc⟩ <;>
      simp [finalGuessResolve, hc1]
  · by_cases hc2 : ¬(lowerStr (jsTrimStr cap) = lowerStr ps.name) ∧ answer = Answer.No
    · refine ⟨?_, fun hc => absurd hc hc1, fun _ => ?_, fun _ hc => absurd hc2 hc⟩ <;>
        simp [finalGuessResolve, hc1, hc2]
    · refine ⟨?_, fun hc => absurd hc hc1, fun hc => absurd hc hc2, fun _ _ => ⟨?_, ?_⟩⟩ <;>
        simp [finalGuessResolve, hc1, hc2]

/-- Session for the C6 witness: the AI made the final guess "Is your
character Dana?" while the player's secret is Bella. -/
def c6Session : GameSession :=
  { baseSession with
    gameState := GameState.AI_TURN_WAITING_FOR_ANSWER
    playerSecret := some bella
    lastAIQuestion := "Is your character Dana?"
    isAIFinalGuess := true }

/-- Witness for C6: the incorrect guess answered No hands the player the
win. -/
theorem aiFinalGuess_answer_outcomes_witness :
    c6Session.playerSecret = some bella ∧
    c6Session.lastAIQuestion ≠ "" ∧
    c6Session.isAIFinalGuess = true ∧
    finalGuessMatch c6Session.lastAIQuestion = some ("Dana") ∧
    jsTrimStr ("Dana") ≠ "" ∧
    ((handlePlayerAnswer c6Session Answer.No).gameState = GameState.GAME_OVER ∧
      (lowerStr (jsTrimStr ("Dana")) = lowerStr bella.name ∧ Answer.No = Answer.Yes →
        (handlePlayerAnswer c6Session Answer.No).winner = some GameWinner.AI) ∧
      (lowerStr (jsTrimStr ("Dana")) ≠ lowerStr bella.name ∧ Answer.No = Answer.No →
        (handlePlayerAnswer c6Session Answer.No).winner = some GameWinner.PLAYER) ∧
      (¬(lowerStr (jsTrimStr ("Dana")) = lowerStr bella.name ∧ Answer.No = Answer.Yes) →
       ¬(lowerStr (jsTrimStr ("Dana")) ≠ lowerStr bella.name ∧ Answer.No = Answer.No) →
        (handlePlayerAnswer c6Session Answer.No).winner = some GameWinner.AI ∧
        (handlePlayerAnswer c6Session Answer.No).winReason =
          ("There was a mismatch in the final guess. Your card was ") ++ bella.name ++
            (". The AI wins."))) :=
  ⟨rfl, by decide, rfl, by decide, by decide,
    aiFinalGuess_answer_outcomes c6Session Answer.No bella ("Dana")
      rfl (by decide) rfl (by decide) (by decide)⟩

/-! ### Reconciliation lemmas -/

/-- Membership in the computed elimination set, characterised over the
analysis entries. -/
lemma mem_computeEliminatedIds (analysis : List EliminationAnalysisResult)
    (answer : Answer) (i : String) :
    i ∈ computeEliminatedIds analysis answer ↔
      ∃ e ∈ analysis, e.id = i ∧ e.has_feature = elimFlag answer := by
  cases answer <;>
    simp [computeEliminatedIds, elimFlag, List.mem_filter] <;>
    tauto

/-- When the analysis has one entry per remaining candidate (id-for-id) and
is not degenerate, the elimination set misses at least one candidate id, so
its size is strictly below the board size. -/
lemma elimSet_card_lt (analysis : List EliminationAnalysisResult) (answer : Answer)
    (R : List Character)
    (hids : analysis.map (fun e => e.id) = R.map (fun c => c.id))
    (hnd : (R.map (fun c => c.id)).Nodup)
    (hnondeg : ¬ isDegenerate analysis) :
    (computeEliminatedIds analysis answer).card < R.length := by
  have hnd' : (analysis.map (fun e => e.id)).Nodup := by
    rw [hids]; exact hnd
  -- a surviving entry: one whose feature value does not cause elimination
  have hsurv : ∃ e ∈ analysis, e.has_feature = !(elimFlag answer) := by
    rcases answer with _ | _
    · -- Yes: elimination removes entries without the feature; a surviving
      -- entry has the feature, which exists since the filter is non-empty
      have h0 : (analysis.filter (fun res => res.has_feature)).length ≠ 0 := by
        intro h; exact hnondeg (Or.inl h)
      have : analysis.filter (fun res => res.has_feature) ≠ [] := by
        intro h; exact h0 (by simp [h])
      obtain ⟨e, he⟩ := List.exists_mem_of_ne_nil _ this
      have := List.mem_filter.mp he
      exact ⟨e, this.1, by simpa [elimFlag] using this.2⟩
    · -- No: eliminating entries with the feature; a survivor lacks it,
      -- which exists since the filter is not everything
      have h0 : (analysis.filter (fun res => res.has_feature)).length ≠ analysis.length := by
        intro h; exact hnondeg (Or.inr h)
      by_contra hall
      push_neg at hall
      have : analysis.filter (fun res => res.has_feature) = analysis := by
        apply List.filter_eq_self.mpr
        intro e he
        have := hall e he
        simpa [elimFlag] using this
      exact h0 (by rw [this])
  obtain ⟨e0, he0, hfe0⟩ := hsurv
  have hsub : computeEliminatedIds analysis answer ⊆ (R.map (fun c => c.id)).toFinset := by
    intro i hi
    obtain ⟨e, he, hei, _⟩ := (mem_computeEliminatedIds analysis answer i).mp hi
    rw [List.mem_toFinset, ← hids]
    exact hei ▸ List.mem_map_of_mem (fun e => e.id) he
  have hnotmem : e0.id ∉ computeEliminatedIds analysis answer := by
    intro hmem
    obtain ⟨e1, he1, hid1, hf1⟩ := (mem_computeEliminatedIds analysis answer e0.id).mp hmem
    have : e1 = e0 := List.inj_on_of_nodup_map hnd' he1 he0 hid1
    rw [this, hfe0] at hf1
    cases elimFlag answer <;> simp_all
  have hmem0 : e0.id ∈ (R.map (fun c => c.id)).toFinset := by
    rw [List.mem_toFinset, ← hids]
    exact List.mem_map_of_mem (fun e => e.id) he0
  have hss : computeEliminatedIds analysis answer ⊂ (R.map (fun c => c.id)).toFinset :=
    Finset.ssubset_iff_of_subset hsub |>.mpr ⟨e0.id, hmem0, hnotmem⟩
  calc (computeEliminatedIds analysis answer).card
      < (R.map (fun c => c.id)).toFinset.card := Finset.card_lt_card hss
    _ = (R.map (fun c => c.id)).length := List.toFinset_card_of_nodup hnd
    _ = R.length := by simp

/-- If every id of the elimination set occurs among the candidate ids and
the set is smaller than the (duplicate-free) board, filtering cannot empty
the board. -/
lemma filter_not_nil_of_card_ne (R : List Character) (E : Finset String)
    (hnd : (R.map (fun c => c.id)).Nodup)
    (hsub : ∀ i ∈ E, i ∈ R.map (fun c => c.id))
    (hcard : E.card ≠ R.length) :
    R.filter (fun c => decide (c.id ∉ E)) ≠ [] := by
  intro hnil
  have hall : ∀ c ∈ R, c.id ∈ E := by
    intro c hc
    have := List.filter_eq_nil_iff.mp hnil c hc
    simpa using this
  have hEeq : E = (R.map (fun c => c.id)).toFinset := by
    apply Finset.ext
    intro i
    constructor
    · intro hi
      rw [List.mem_toFinset]
      exact hsub i hi
    · intro hi
      rw [List.mem_toFinset] at hi
      obtain ⟨c, hc, hci⟩ := List.mem_map.mp hi
      exact hci ▸ hall c hc
  apply hcard
  rw [hEeq, List.toFinset_card_of_nodup hnd]
  simp

/-- Claim C2: with a discriminating analysis covering exactly the remaining
candidates, the elimination set consists exactly of the ids judged without
the feature on Yes (with it on No), and the new remaining list is the old
one filtered by those ids, order preserved, with the turn passing back to
the player. -/
theorem submitPlayerAnswer_elimination
    (s : GameSession) (answer : Answer) (ps : Character)
    (hq : s.lastAIQuestion ≠ "") (hps : s.playerSecret = some ps)
    (hfg : s.isAIFinalGuess = false)
    (hids : s.lastAIAnalysis.map (fun e => e.id) = s.aiRemainingChars.map (fun c => c.id))
    (hnd : (s.aiRemainingChars.map (fun c => c.id)).Nodup)
    (hnondeg : ¬ isDegenerate s.lastAIAnalysis) :
    (∀ i : String, i ∈ computeEliminatedIds s.lastAIAnalysis answer ↔
      ∃ e ∈ s.lastAIAnalysis, e.id = i ∧ e.has_feature = elimFlag answer) ∧
    (handlePlayerAnswer s answer).aiRemainingChars =
      s.aiRemainingChars.filter
        (fun c => decide (c.id ∉ computeEliminatedIds s.lastAIAnalysis answer)) ∧
    (handlePlayerAnswer s answer).gameState = GameState.PLAYER_TURN_ASKING := by
  have hcardlt := elimSet_card_lt s.lastAIAnalysis answer s.aiRemainingChars hids hnd hnondeg
  have hcardne : (computeEliminatedIds s.lastAIAnalysis answer).card ≠
      s.aiRemainingChars.length := Nat.ne_of_lt hcardlt
  have hsub : ∀ i ∈ computeEliminatedIds s.lastAIAnalysis answer,
      i ∈ s.aiRemainingChars.map (fun c => c.id) := by
    intro i hi
    obtain ⟨e, he, hei, _⟩ := (mem_computeEliminatedIds s.lastAIAnalysis answer i).mp hi
    rw [← hids]
    exact hei ▸ List.mem_map_of_mem (fun e => e.id) he
  have hfilter := filter_not_nil_of_card_ne s.aiRemainingChars
    (computeEliminatedIds s.lastAIAnalysis answer) hnd hsub hcardne
  refine ⟨fun i => mem_computeEliminatedIds s.lastAIAnalysis answer i, ?_, ?_⟩ <;>
  · rw [show handlePlayerAnswer s answer =
        applyElimination
          { s with messages := s.messages ++ [playerMsg (answerText answer)] } answer by
      simp [handlePlayerAnswer, hq, hps, hfg]]
    unfold applyElimination
    simp only
    rw [if_neg (by
      intro hcon
      exact hcardne (by simpa using hcon.1))]
    split
    · rename_i hnil
      exact absurd (by simpa using hnil) hfilter
    · simp

/-- Session for the C2 witness: scenario C, candidates Cid and Dana with the
"wearing glasses" analysis. -/
def c2Session : GameSession :=
  { baseSession with
    gameState := GameState.AI_TURN_WAITING_FOR_ANSWER
    aiRemainingChars := [cid, dana]
    lastAIQuestion := "Is your character wearing glasses?"
    lastAIAnalysis :=
      [{ id := "cid", name := "Cid", has_feature := true, reasoning := "" },
       { id := "dana", name := "Dana", has_feature := false, reasoning := "" }] }

/-- Witness for C2: scenario C — answering No eliminates exactly Cid and
leaves `[Dana]`. -/
theorem submitPlayerAnswer_elimination_witness :
    (c2Session.lastAIQuestion ≠ "" ∧
     c2Session.playerSecret = some bella ∧
     c2Session.isAIFinalGuess = false ∧
     c2Session.lastAIAnalysis.map (fun e => e.id) =
       c2Session.aiRemainingChars.map (fun c => c.id) ∧
     (c2Session.aiRemainingChars.map (fun c => c.id)).Nodup ∧
     ¬ isDegenerate c2Session.lastAIAnalysis) ∧
    ((∀ i : String, i ∈ computeEliminatedIds c2Session.lastAIAnalysis Answer.No ↔
        ∃ e ∈ c2Session.lastAIAnalysis, e.id = i ∧ e.has_feature = elimFlag Answer.No) ∧
      (handlePlayerAnswer c2Session Answer.No).aiRemainingChars =
        c2Session.aiRemainingChars.filter
          (fun c => decide (c.id ∉ computeEliminatedIds c2Session.lastAIAnalysis Answer.No)) ∧
      (handlePlayerAnswer c2Session Answer.No).gameState = GameState.PLAYER_TURN_ASKING) ∧
    (handlePlayerAnswer c2Session Answer.No).aiRemainingChars = [dana] :=
  ⟨⟨by decide, rfl, rfl, by decide, by decide, by decide⟩,
    submitPlayerAnswer_elimination c2Session Answer.No bella
      (by decide) rfl rfl (by decide) (by decide) (by decide),
    by decide⟩

/-- Session for the C1 counterexample: two remaining candidates, but the
stored analysis (non-degenerate, hence storable by `handleAITurn`) also
contains entries whose ids are not on the board. -/
def c1Session : GameSession :=
  { baseSession with
    gameState := GameState.AI_TURN_WAITING_FOR_ANSWER
    aiRemainingChars := [alex, bella]
    playerSecret := some bella
    lastAIQuestion := "Is your character wearing a hat?"
    lastAIAnalysis :=
      [{ id := "alex", name := "Alex", has_feature := false, reasoning := "" },
       { id := "bella", name := "Bella", has_feature := false, reasoning := "" },
       { id := "ghost1", name := "Ghost", has_feature := false, reasoning := "" },
       { id := "ghost2", name := "Ghost", has_feature := true, reasoning := "" }]
    isAIFinalGuess := false }

/-- Counterexample to C1 as stated: with a stored non-degenerate analysis
whose ids are not confined to the board, a Yes answer eliminates three
distinct ids, the size check `3 = 2` fails, and every remaining candidate
is removed — the safety veto does not fire and the game ends instead of
passing the turn. -/
theorem reconciliation_wipes_board_counterexample :
    ¬ isDegenerate c1Session.lastAIAnalysis ∧
    c1Session.aiRemainingChars ≠ [] ∧
    (computeEliminatedIds c1Session.lastAIAnalysis Answer.Yes).card ≠
      c1Session.aiRemainingChars.length ∧
    (handlePlayerAnswer c1Session Answer.Yes).aiRemainingChars = [] ∧
    (handlePlayerAnswer c1Session Answer.Yes).gameState = GameState.GAME_OVER := by
  decide

/-- Claim C1 as amended: provided every id mentioned by the stored analysis
is the id of a remaining candidate (and board ids are duplicate-free), a
reconciliation step never empties the board; and whenever the computed
elimination set is as large as the board, the elimination is vetoed: the
board is unchanged, a SYSTEM warning is appended, and the turn passes to
the player. -/
theorem reconciliation_safety_amended
    (s : GameSession) (answer : Answer) (ps : Character)
    (hq : s.lastAIQuestion ≠ "") (hps : s.playerSecret = some ps)
    (hfg : s.isAIFinalGuess = false)
    (hnd : (s.aiRemainingChars.map (fun c => c.id)).Nodup)
    (hsub : ∀ e ∈ s.lastAIAnalysis, e.id ∈ s.aiRemainingChars.map (fun c => c.id))
    (hne : s.aiRemainingChars ≠ []) :
    (handlePlayerAnswer s answer).aiRemainingChars ≠ [] ∧
    ((computeEliminatedIds s.lastAIAnalysis answer).card = s.aiRemainingChars.length →
      (handlePlayerAnswer s answer).aiRemainingChars = s.aiRemainingChars ∧
      (handlePlayerAnswer s answer).gameState = GameState.PLAYER_TURN_ASKING ∧
      (handlePlayerAnswer s answer).messages = s.messages ++
        [playerMsg (answerText answer),
         sysMsg ("The AI got confused and almost eliminated everyone! No one was eliminated.")]) := by
  have hred : handlePlayerAnswer s answer =
      applyElimination
        { s with messages := s.messages ++ [playerMsg (answerText answer)] } answer := by
    simp [handlePlayerAnswer, hq, hps, hfg]
  have hpos : 0 < s.aiRemainingChars.length := List.length_pos.mpr hne
  by_cases hcase :
      (computeEliminatedIds s.lastAIAnalysis answer).card = s.aiRemainingChars.length
  · -- the elimination would wipe the board: the safety veto fires
    refine ⟨?_, fun _ => ⟨?_, ?_, ?_⟩⟩ <;>
    · rw [hred]
      unfold applyElimination
      simp only
      rw [if_pos (by simpa using And.intro hcase hpos)]
      try simp [hne]
  · -- the elimination keeps at least one candidate
    have hsub' : ∀ i ∈ computeEliminatedIds s.lastAIAnalysis answer,
        i ∈ s.aiRemainingChars.map (fun c => c.id) := by
      intro i hi
      obtain ⟨e, he, hei, _⟩ := (mem_computeEliminatedIds s.lastAIAnalysis answer i).mp hi
      exact hei ▸ hsub e he
    have hfilter := filter_not_nil_of_card_ne s.aiRemainingChars
      (computeEliminatedIds s.lastAIAnalysis answer) hnd hsub' hcase
    refine ⟨?_, fun hc => absurd hc hcase⟩
    rw [hred]
    unfold applyElimination
    simp only
    rw [if_neg (by
      intro hcon
      exact hcase (by simpa using hcon.1))]
    split
    · rename_i hnil
      exact absurd (by simpa using hnil) hfilter
    · simpa using hfilter

/-- Session for the C1 witness: scenario F, an adversarial all-false
analysis covering exactly the two remaining candidates, where a Yes answer
would eliminate 100 percent of the board. -/
def c1SafeSession : GameSession :=
  { baseSession with
    gameState := GameState.AI_TURN_WAITING_FOR_ANSWER
    aiRemainingChars := [alex, bella]
    playerSecret := some bella
    lastAIQuestion := "Is your character wearing a hat?"
    lastAIAnalysis :=
      [{ id := "alex", name := "Alex", has_feature := false, reasoning := "" },
       { id := "bella", name := "Bella", has_feature := false, reasoning := "" }]
    isAIFinalGuess := false }

/-- Witness for the amended C1, at scenario F: the veto fires, nobody is
eliminated, the warning is appended, and the turn passes normally. -/
theorem reconciliation_safety_amended_witness :
    (c1SafeSession.lastAIQuestion ≠ "" ∧
     c1SafeSession.playerSecret = some bella ∧
     c1SafeSession.isAIFinalGuess = false ∧
     (c1SafeSession.aiRemainingChars.map (fun c => c.id)).Nodup ∧
     (∀ e ∈ c1SafeSession.lastAIAnalysis,
       e.id ∈ c1SafeSession.aiRemainingChars.map (fun c => c.id)) ∧
     c1SafeSession.aiRemainingChars ≠ []) ∧
    ((handlePlayerAnswer c1SafeSession Answer.Yes).aiRemainingChars ≠ [] ∧
     ((computeEliminatedIds c1SafeSession.lastAIAnalysis Answer.Yes).card =
        c1SafeSession.aiRemainingChars.length →
      (handlePlayerAnswer c1SafeSession Answer.Yes).aiRemainingChars =
        c1SafeSession.aiRemainingChars ∧
      (handlePlayerAnswer c1SafeSession Answer.Yes).gameState =
        GameState.PLAYER_TURN_ASKING ∧
      (handlePlayerAnswer c1SafeSession Answer.Yes).messages =
        c1SafeSession.messages ++
          [playerMsg (answerText Answer.Yes),
           sysMsg ("The AI got confused and almost eliminated everyone! No one was eliminated.")])) ∧
    (computeEliminatedIds c1SafeSession.lastAIAnalysis Answer.Yes).card =
      c1SafeSession.aiRemainingChars.length :=
  ⟨⟨by decide, rfl, rfl, by decide, by decide, by decide⟩,
    reconciliation_safety_amended c1SafeSession Answer.Yes bella
      (by decide) rfl rfl (by decide) (by decide) (by decide),
    by decide⟩

/-- Counterexample to C4 as stated: the input "is you character Alex" does
not match the claim-stated pattern (so the claim requires normal-question
handling, ending in PLAYER_TURN_ELIMINATING), yet the implemented
`FINAL_GUESS_REGEX` accepts it via the `is your? character` alternative and
the engine resolves it as a final guess, ending the game. -/
theorem playerQuestion_pattern_counterexample :
    claimFinalGuessMatch ("is you character Alex") = none ∧
    classifiedAsFinalGuess c5Session.activeCharacters ("is you character Alex") = true ∧
    (handlePlayerQuestion c5Session ("is you character Alex") (Except.ok ("No"))).gameState =
      GameState.GAME_OVER ∧
    (handlePlayerQuestion c5Session ("is you character Alex") (Except.ok ("No"))).gameState ≠
      GameState.PLAYER_TURN_ELIMINATING := by
  decide

/-- Claim C4 as amended: `submitPlayerQuestion` treats its input as a final
guess exactly when the text matches the implemented pattern
`"is (it|the person|the character|you(r)? character) <NAME>"`
(case-insensitive, optional trailing question mark) and the captured name
equals, up to case, the name of some active character; every other input is
handled as a normal question and, on a successful model answer, moves to
PLAYER_TURN_ELIMINATING. -/
theorem playerQuestion_classification_amended
    (s : GameSession) (q : String) (ans : String)
    (hq : q ≠ "") (hsec : s.aiSecret ≠ none) :
    ((handlePlayerQuestion s q (Except.ok ans)).gameState = GameState.GAME_OVER ↔
      classifiedAsFinalGuess s.activeCharacters q = true) ∧
    (classifiedAsFinalGuess s.activeCharacters q = false →
      (handlePlayerQuestion s q (Except.ok ans)).gameState =
        GameState.PLAYER_TURN_ELIMINATING) := by
  obtain ⟨sec, hsec'⟩ := Option.ne_none_iff_exists'.mp hsec
  cases hm : finalGuessMatch q with
  | none =>
    have hstate : (handlePlayerQuestion s q (Except.ok ans)).gameState =
        GameState.PLAYER_TURN_ELIMINATING := by
      simp [handlePlayerQuestion, hq, hsec', hm]
    have hcls : classifiedAsFinalGuess s.activeCharacters q = false := by
      simp [classifiedAsFinalGuess, hm]
    rw [hstate, hcls]
    exact ⟨by simp, fun _ => rfl⟩
  | some cap =>
    by_cases hact : ∃ x ∈ s.activeCharacters, lowerStr x.name = lowerStr (jsTrimStr cap)
    · have hcls : classifiedAsFinalGuess s.activeCharacters q = true := by
        simp only [classifiedAsFinalGuess, hm, List.any_eq_true, beq_iff_eq]
        exact hact
      have hstate : (handlePlayerQuestion s q (Except.ok ans)).gameState =
          GameState.GAME_OVER := by
        by_cases hc : lowerStr (jsTrimStr cap) = lowerStr sec.name
        · have hact2 : ∃ x ∈ s.activeCharacters, lowerStr x.name = lowerStr sec.name := by
            rw [← hc]; exact hact
          simp [handlePlayerQuestion, hq, hsec', hm, hact2, hc]
        · simp [handlePlayerQuestion, hq, hsec', hm, hact, hc]
      rw [hstate, hcls]
      exact ⟨by simp, fun h => by simp at h⟩
    · have hcls : classifiedAsFinalGuess s.activeCharacters q = false := by
        simp only [classifiedAsFinalGuess, hm]
        rw [← Bool.not_eq_true, List.any_eq_true]
        simp only [beq_iff_eq]
        exact hact
      have hstate : (handlePlayerQuestion s q (Except.ok ans)).gameState =
          GameState.PLAYER_TURN_ELIMINATING := by
        simp [handlePlayerQuestion, hq, hsec', hm, hact]
      rw [hstate, hcls]
      exact ⟨by simp, fun _ => rfl⟩

/-- Witness for the amended C4 at a concrete guess input: "Is it Bella?"
is classified as a final guess and ends the game. -/
theorem playerQuestion_classification_amended_witness :
    ("Is it Bella?" ≠ "") ∧ c5Session.aiSecret ≠ none ∧
    (((handlePlayerQuestion c5Session ("Is it Bella?") (Except.ok ("Yes"))).gameState =
        GameState.GAME_OVER ↔
      classifiedAsFinalGuess c5Session.activeCharacters ("Is it Bella?") = true) ∧
     (classifiedAsFinalGuess c5Session.activeCharacters ("Is it Bella?") = false →
      (handlePlayerQuestion c5Session ("Is it Bella?") (Except.ok ("Yes"))).gameState =
        GameState.PLAYER_TURN_ELIMINATING)) :=
  ⟨by decide, by decide,
    playerQuestion_classification_amended c5Session ("Is it Bella?") ("Yes")
      (by decide) (by decide)⟩

/-- Counterexample to C10 as stated: the name " Dana" (leading blank) is
non-empty and does not end in a question mark, yet matching the
engine-constructed final guess does not recover it exactly — the greedy
`\s+` swallows the leading blank and the capture is "Dana". -/
theorem aiFinalGuess_roundTrip_counterexample :
    (" Dana" ≠ "") ∧
    ((" Dana").data.getLast? ≠ some '?') ∧
    finalGuessMatch (mkAIFinalGuess (" Dana")) = some ("Dana") ∧
    finalGuessMatch (mkAIFinalGuess (" Dana")) ≠ some (" Dana") := by
  decide

/-- Claim C10 as amended: for every character name that is non-empty, does
not end in "?", does not begin with a whitespace character, and contains
only characters matchable by `.` (no line terminators), matching the
engine-constructed final-guess string recovers exactly the name; and for
such names an AI final guess never falls through to the elimination logic:
`handlePlayerAnswer` ends the game and leaves the board untouched. -/
theorem aiFinalGuess_roundTrip_amended
    (name : String) (c : Char) (cs : List Char)
    (hne : name.data = c :: cs)
    (hws : isWsChar c = false)
    (hdot : name.data.all isDotChar = true)
    (hqm : name.data.getLast? ≠ some '?') :
    finalGuessMatch (mkAIFinalGuess name) = some name ∧
    ∀ (s : GameSession) (answer : Answer) (ps : Character),
      s.playerSecret = some ps →
      s.lastAIQuestion = mkAIFinalGuess name →
      s.isAIFinalGuess = true →
      (handlePlayerAnswer s answer).gameState = GameState.GAME_OVER ∧
      (handlePlayerAnswer s answer).aiRemainingChars = s.aiRemainingChars := by
  have hdata : (mkAIFinalGuess name).data
      = ("Is your character ").data ++ (name.data ++ ['?']) := by
    show (("Is your character ") ++ name ++ ("?")).data = _
    rw [String.data_append, String.data_append, List.append_assoc]
  have htrim : jsTrim ((mkAIFinalGuess name).data)
      = ("Is your character ").data ++ (name.data ++ ['?']) := by
    rw [hdata]
    unfold jsTrim
    rw [show List.dropWhile isWsChar
          (("Is your character ").data ++ (name.data ++ ['?']))
        = ("Is your character ").data ++ (name.data ++ ['?']) from rfl]
    rw [List.reverse_append, List.reverse_append]
    rw [show List.dropWhile isWsChar
          ((List.reverse ['?'] ++ List.reverse name.data) ++
            List.reverse (("Is your character ").data))
        = (List.reverse ['?'] ++ List.reverse name.data) ++
            List.reverse (("Is your character ").data) from rfl]
    simp [List.reverse_append, List.reverse_reverse]
  have hbody : (name.data ++ ['?']).dropWhile isWsChar = name.data ++ ['?'] := by
    rw [hne]
    show List.dropWhile isWsChar (c :: (cs ++ ['?'])) = (c :: cs) ++ ['?']
    rw [List.dropWhile_cons, hws]
    simp
  have hcapt : captureTail (' ' :: (name.data ++ ['?'])) = some name.data := by
    simp only [captureTail]
    rw [if_pos (show isWsChar ' ' = true from rfl)]
    rw [hbody]
    simp [List.reverse_append, List.reverse_reverse, hdot]
  have hmatch : finalGuessMatch (mkAIFinalGuess name) = some name := by
    unfold finalGuessMatch matchAlts
    simp only [finalGuessAlts, List.foldr, htrim]
    rw [show stripLitCI (("is it").data)
          (("Is your character ").data ++ (name.data ++ ['?'])) = none from rfl]
    rw [show stripLitCI (("is the person").data)
          (("Is your character ").data ++ (name.data ++ ['?'])) = none from rfl]
    rw [show stripLitCI (("is the character").data)
          (("Is your character ").data ++ (name.data ++ ['?'])) = none from rfl]
    rw [show stripLitCI (("is your character").data)
          (("Is your character ").data ++ (name.data ++ ['?']))
        = some (' ' :: (name.data ++ ['?'])) from rfl]
    simp [Option.orElse, hcapt]
  refine ⟨hmatch, ?_⟩
  intro s answer ps hps hlast hfg
  have hqne : mkAIFinalGuess name ≠ "" := by
    intro h
    have := congrArg String.data h
    rw [hdata] at this
    simp at this
  have hjt : jsTrimStr name ≠ "" := by
    unfold jsTrimStr
    intro h
    have hnil : jsTrim name.data = [] := by
      have := congrArg String.data h
      simpa using this
    unfold jsTrim at hnil
    rw [hne] at hnil
    rw [show List.dropWhile isWsChar (c :: cs) = c :: cs by
      rw [List.dropWhile_cons, hws]; simp] at hnil
    have : List.dropWhile isWsChar (c :: cs).reverse = [] := by
      cases hcase : List.dropWhile isWsChar (c :: cs).reverse with
      | nil => rfl
      | cons a l =>
        rw [hcase] at hnil
        simp at hnil
    have hall := List.dropWhile_eq_nil_iff.mp this
    have : isWsChar c = true := hall c (by simp)
    rw [hws] at this
    cases this
  have hred : handlePlayerAnswer s answer =
      finalGuessResolve
        { s with messages := s.messages ++ [playerMsg (answerText answer)] }
        ps (jsTrimStr name) answer := by
    simp [handlePlayerAnswer, hqne, hps, hlast, hmatch, hfg, hjt]
  rw [hred]
  unfold finalGuessResolve
  split_ifs <;> simp

/-- Witness for the amended C10 at the concrete name "Dana": the match
recovers "Dana" and the final guess always resolves the game. -/
theorem aiFinalGuess_roundTrip_amended_witness :
    (("Dana").data = 'D' :: ['a', 'n', 'a']) ∧
    (isWsChar 'D' = false) ∧
    (("Dana").data.all isDotChar = true) ∧
    (("Dana").data.getLast? ≠ some '?') ∧
    (finalGuessMatch (mkAIFinalGuess ("Dana")) = some ("Dana") ∧
     ∀ (s : GameSession) (answer : Answer) (ps : Character),
       s.playerSecret = some ps →
       s.lastAIQuestion = mkAIFinalGuess ("Dana") →
       s.isAIFinalGuess = true →
       (handlePlayerAnswer s answer).gameState = GameState.GAME_OVER ∧
       (handlePlayerAnswer s answer).aiRemainingChars = s.aiRemainingChars) :=
  ⟨by decide, by decide, by decide, by decide,
    aiFinalGuess_roundTrip_amended ("Dana") 'D' ['a', 'n', 'a']
      (by decide) (by decide) (by decide) (by decide)⟩

/-! ### AI-turn loop lemmas -/

/-- The loop makes at most `fuel` model calls. -/
lemma aiTurnLoop_trace_le
    (oracle : Nat → Option String → Except String AIQuestionAndAnalysis) :
    ∀ (fuel : Nat) (s : GameSession) (attempt : Nat) (rr : Option String),
      (aiTurnLoop oracle s attempt fuel rr).2.length ≤ fuel := by
  intro fuel
  induction fuel with
  | zero =>
    intro s attempt rr
    simp [aiTurnLoop]
  | succ n ih =>
    intro s attempt rr
    simp only [aiTurnLoop]
    cases horacle : oracle attempt rr with
    | error e =>
      by_cases hatt : attempt = MAX_AI_RETRIES
      · simp [hatt]
      · simp only [hatt, if_false]
        simpa using Nat.succ_le_succ (ih s (attempt + 1) _)
    | ok r =>
      dsimp only
      by_cases hdeg : (r.analysis.filter (fun res => res.has_feature)).length = 0 ∨
          (r.analysis.filter (fun res => res.has_feature)).length = r.analysis.length
      · rw [if_pos hdeg]
        by_cases hatt : attempt = MAX_AI_RETRIES
        · rw [if_pos hatt]
          simp
        · rw [if_neg hatt]
          simpa using Nat.succ_le_succ (ih s (attempt + 1) _)
      · rw [if_neg hdeg]
        simp

/-- Where the loop can leave `lastAIAnalysis`: either untouched (state also
untouched, or conceded to PLAYER_TURN_ASKING), or set verbatim to the
analysis of a non-degenerate model response, with the state in review or
waiting-for-answer. -/
lemma aiTurnLoop_stored
    (oracle : Nat → Option String → Except String AIQuestionAndAnalysis) :
    ∀ (fuel : Nat) (s : GameSession) (attempt : Nat) (rr : Option String),
      ((aiTurnLoop oracle s attempt fuel rr).1.lastAIAnalysis = s.lastAIAnalysis ∧
       (aiTurnLoop oracle s attempt fuel rr).1.gameState = s.gameState) ∨
      ((aiTurnLoop oracle s attempt fuel rr).1.lastAIAnalysis = s.lastAIAnalysis ∧
       (aiTurnLoop oracle s attempt fuel rr).1.gameState = GameState.PLAYER_TURN_ASKING) ∨
      (∃ k rk r, oracle k rk = Except.ok r ∧ ¬ isDegenerate r.analysis ∧
        (aiTurnLoop oracle s attempt fuel rr).1.lastAIAnalysis = r.analysis ∧
        ((aiTurnLoop oracle s attempt fuel rr).1.gameState =
           GameState.PLAYER_REVIEWING_AI_ANALYSIS ∨
         (aiTurnLoop oracle s attempt fuel rr).1.gameState =
           GameState.AI_TURN_WAITING_FOR_ANSWER)) := by
  intro fuel
  induction fuel with
  | zero =>
    intro s attempt rr
    left
    simp [aiTurnLoop]
  | succ n ih =>
    intro s attempt rr
    simp only [aiTurnLoop]
    cases horacle : oracle attempt rr with
    | error e =>
      by_cases hatt : attempt = MAX_AI_RETRIES
      · right; left
        simp [hatt, concedeTurn]
      · simp only [hatt, if_false]
        exact ih s (attempt + 1) _
    | ok r =>
      dsimp only
      by_cases hdeg : (r.analysis.filter (fun res => res.has_feature)).length = 0 ∨
          (r.analysis.filter (fun res => res.has_feature)).length = r.analysis.length
      · rw [if_pos hdeg]
        by_cases hatt : attempt = MAX_AI_RETRIES
        · right; left
          rw [if_pos hatt]
          simp [concedeTurn]
        · rw [if_neg hatt]
          exact ih s (attempt + 1) _
      · right; right
        refine ⟨attempt, rr, r, horacle, hdeg, ?_⟩
        rw [if_neg hdeg]
        by_cases hrev : s.isReviewModeEnabled <;>
          simp [aiTurnSuccess, hrev]

/-- `handleAITurn` on a board of at least two candidates reduces to the
retry loop. -/
lemma handleAITurn_eq_loop
    (s : GameSession)
    (oracle : Nat → Option String → Except String AIQuestionAndAnalysis)
    (a b : Character) (rest : List Character)
    (hst : s.gameState = GameState.AI_TURN)
    (hrem : s.aiRemainingChars = a :: b :: rest) :
    handleAITurn s oracle =
      aiTurnLoop oracle { s with isAIFinalGuess := false } 1 MAX_AI_RETRIES none := by
  simp [handleAITurn, hst, hrem]

/-- Claim C7: when every model response carries a degenerate analysis, the
engine makes exactly three attempts — the first with no retry reason, the
next two with the non-discriminating retry reason fed into the prompt —
stores no question or analysis, appends the SYSTEM concession message, and
passes the turn to the player; and for any oracle at most
`MAX_AI_RETRIES` attempts are made. -/
theorem degenerate_analysis_retry_and_concede
    (s : GameSession)
    (oracle : Nat → Option String → Except String AIQuestionAndAnalysis)
    (a b : Character) (rest : List Character)
    (hst : s.gameState = GameState.AI_TURN)
    (hrem : s.aiRemainingChars = a :: b :: rest)
    (hdeg : ∀ k rk, ∃ r, oracle k rk = Except.ok r ∧ isDegenerate r.analysis) :
    (handleAITurn s oracle).2 =
      [(1, none), (2, some nonDiscrimRetryReason), (3, some nonDiscrimRetryReason)] ∧
    (handleAITurn s oracle).1.gameState = GameState.PLAYER_TURN_ASKING ∧
    (handleAITurn s oracle).1.lastAIQuestion = s.lastAIQuestion ∧
    (handleAITurn s oracle).1.lastAIAnalysis = s.lastAIAnalysis ∧
    (handleAITurn s oracle).1.messages =
      s.messages ++ [sysMsg ("The AI is having trouble thinking. Your turn!")] ∧
    (∀ orc : Nat → Option String → Except String AIQuestionAndAnalysis,
      (handleAITurn s orc).2.length ≤ MAX_AI_RETRIES) := by
  obtain ⟨r1, h1, hd1⟩ := hdeg 1 none
  obtain ⟨r2, h2, hd2⟩ := hdeg 2 (some nonDiscrimRetryReason)
  obtain ⟨r3, h3, hd3⟩ := hdeg 3 (some nonDiscrimRetryReason)
  have step : ∀ (s0 : GameSession) (attempt fuel : Nat) (rr : Option String)
      (r : AIQuestionAndAnalysis),
      oracle attempt rr = Except.ok r → isDegenerate r.analysis →
      aiTurnLoop oracle s0 attempt (fuel + 1) rr =
        if attempt = MAX_AI_RETRIES then (concedeTurn s0, [(attempt, rr)])
        else
          ((aiTurnLoop oracle s0 (attempt + 1) fuel (some nonDiscrimRetryReason)).1,
            (attempt, rr) ::
              (aiTurnLoop oracle s0 (attempt + 1) fuel (some nonDiscrimRetryReason)).2) := by
    intro s0 attempt fuel rr r hor hdegr
    have hdeg' : (r.analysis.filter (fun res => res.has_feature)).length = 0 ∨
        (r.analysis.filter (fun res => res.has_feature)).length = r.analysis.length := hdegr
    simp only [aiTurnLoop]
    rw [hor]
    dsimp only
    rw [if_pos hdeg']
  have e3 : ∀ s0 : GameSession,
      aiTurnLoop oracle s0 3 1 (some nonDiscrimRetryReason)
        = (concedeTurn s0, [(3, some nonDiscrimRetryReason)]) := by
    intro s0
    have h := step s0 3 0 (some nonDiscrimRetryReason) r3 h3 hd3
    rw [if_pos (show (3 : Nat) = MAX_AI_RETRIES from rfl)] at h
    exact h
  have e2 : ∀ s0 : GameSession,
      aiTurnLoop oracle s0 2 2 (some nonDiscrimRetryReason)
        = (concedeTurn s0,
            [(2, some nonDiscrimRetryReason), (3, some nonDiscrimRetryReason)]) := by
    intro s0
    have h := step s0 2 1 (some nonDiscrimRetryReason) r2 h2 hd2
    rw [if_neg (show ¬((2 : Nat) = MAX_AI_RETRIES) by decide)] at h
    have h' : aiTurnLoop oracle s0 2 2 (some nonDiscrimRetryReason) =
        ((aiTurnLoop oracle s0 3 1 (some nonDiscrimRetryReason)).1,
          (2, some nonDiscrimRetryReason) ::
            (aiTurnLoop oracle s0 3 1 (some nonDiscrimRetryReason)).2) := h
    rw [e3 s0] at h'
    exact h'
  have e1 : ∀ s0 : GameSession,
      aiTurnLoop oracle s0 1 3 none
        = (concedeTurn s0,
            [(1, none), (2, some nonDiscrimRetryReason), (3, some nonDiscrimRetryReason)]) := by
    intro s0
    have h := step s0 1 2 none r1 h1 hd1
    rw [if_neg (show ¬((1 : Nat) = MAX_AI_RETRIES) by decide)] at h
    have h' : aiTurnLoop oracle s0 1 3 none =
        ((aiTurnLoop oracle s0 2 2 (some nonDiscrimRetryReason)).1,
          (1, none) ::
            (aiTurnLoop oracle s0 2 2 (some nonDiscrimRetryReason)).2) := h
    rw [e2 s0] at h'
    exact h'
  have hturn : handleAITurn s oracle =
      (concedeTurn { s with isAIFinalGuess := false },
        [(1, none), (2, some nonDiscrimRetryReason), (3, some nonDiscrimRetryReason)]) := by
    rw [handleAITurn_eq_loop s oracle a b rest hst hrem]
    exact e1 { s with isAIFinalGuess := false }
  refine ⟨?_, ?_, ?_, ?_, ?_, ?_⟩
  · rw [hturn]
  · rw [hturn]; simp [concedeTurn]
  · rw [hturn]; simp [concedeTurn]
  · rw [hturn]; simp [concedeTurn]
  · rw [hturn]; simp [concedeTurn]
  · intro orc
    rw [handleAITurn_eq_loop s orc a b rest hst hrem]
    exact aiTurnLoop_trace_le orc MAX_AI_RETRIES _ 1 none

/-- Session for the C7 witness: three candidates, AI turn. -/
def c7Session : GameSession :=
  { baseSession with
    gameState := GameState.AI_TURN
    aiRemainingChars := [alex, bella, cid] }

/-- Oracle for the C7 witness: scenario E, every response judges every
candidate `true` (degenerate). -/
def c7Oracle : Nat → Option String → Except String AIQuestionAndAnalysis :=
  fun _ _ =>
    Except.ok
      { question := "Is your character a person?"
        analysis :=
          [{ id := "alex", name := "Alex", has_feature := true, reasoning := "" },
           { id := "bella", name := "Bella", has_feature := true, reasoning := "" },
           { id := "cid", name := "Cid", has_feature := true, reasoning := "" }] }

/-- Witness for C7 at the concrete all-true oracle. -/
theorem degenerate_analysis_retry_and_concede_witness :
    c7Session.gameState = GameState.AI_TURN ∧
    c7Session.aiRemainingChars = alex :: bella :: [cid] ∧
    (∀ k rk, ∃ r, c7Oracle k rk = Except.ok r ∧ isDegenerate r.analysis) ∧
    ((handleAITurn c7Session c7Oracle).2 =
      [(1, none), (2, some nonDiscrimRetryReason), (3, some nonDiscrimRetryReason)] ∧
     (handleAITurn c7Session c7Oracle).1.gameState = GameState.PLAYER_TURN_ASKING ∧
     (handleAITurn c7Session c7Oracle).1.lastAIQuestion = c7Session.lastAIQuestion ∧
     (handleAITurn c7Session c7Oracle).1.lastAIAnalysis = c7Session.lastAIAnalysis ∧
     (handleAITurn c7Session c7Oracle).1.messages =
       c7Session.messages ++ [sysMsg ("The AI is having trouble thinking. Your turn!")] ∧
     (∀ orc : Nat → Option String → Except String AIQuestionAndAnalysis,
       (handleAITurn c7Session orc).2.length ≤ MAX_AI_RETRIES)) :=
  ⟨rfl, rfl, fun _ _ => ⟨_, rfl, by decide⟩,
    degenerate_analysis_retry_and_concede c7Session c7Oracle alex bella [cid]
      rfl rfl (fun _ _ => ⟨_, rfl, by decide⟩)⟩

/-- Session for the C3 counterexample: three remaining candidates. -/
def c3Session : GameSession :=
  { baseSession with
    gameState := GameState.AI_TURN
    aiRemainingChars := [alex, bella, cid]
    isReviewModeEnabled := false }

/-- Oracle for the C3 counterexample: a non-degenerate response whose
analysis has only two entries for the three candidates; nothing in the
engine or the response schema rejects it. -/
def c3Oracle : Nat → Option String → Except String AIQuestionAndAnalysis :=
  fun _ _ =>
    Except.ok
      { question := "Is your character wearing glasses?"
        analysis :=
          [{ id := "alex", name := "Alex", has_feature := true, reasoning := "" },
           { id := "bella", name := "Bella", has_feature := false, reasoning := "" }] }

/-- Counterexample to C3 as stated: the AI question generation succeeds (the
question and analysis are stored and the engine waits for the answer), yet
the stored `lastAIAnalysis` has two entries while `aiRemainingCandidates`
has three members — no length or id validation exists in the code. -/
theorem lastAIAnalysis_length_counterexample :
    (handleAITurn c3Session c3Oracle).1.gameState = GameState.AI_TURN_WAITING_FOR_ANSWER ∧
    (handleAITurn c3Session c3Oracle).1.lastAIQuestion = "Is your character wearing glasses?" ∧
    (handleAITurn c3Session c3Oracle).1.lastAIAnalysis.length = 2 ∧
    c3Session.aiRemainingChars.length = 3 := by
  decide

/-- Claim C3 as amended: the engine stores the model's analysis verbatim,
validating only non-degeneracy; therefore whenever question generation
succeeds AND the model's responses carry exactly one entry per member of
`aiRemainingCandidates` (id for id), the stored `lastAIAnalysis` does too.
The correspondence is not enforced by the code. -/
theorem lastAIAnalysis_entries_amended
    (s : GameSession)
    (oracle : Nat → Option String → Except String AIQuestionAndAnalysis)
    (a b : Character) (rest : List Character)
    (hst : s.gameState = GameState.AI_TURN)
    (hrem : s.aiRemainingChars = a :: b :: rest)
    (hor : ∀ k rk r, oracle k rk = Except.ok r →
      r.analysis.map (fun e => e.id) = s.aiRemainingChars.map (fun c => c.id))
    (hsucc : (handleAITurn s oracle).1.gameState = GameState.PLAYER_REVIEWING_AI_ANALYSIS ∨
             (handleAITurn s oracle).1.gameState = GameState.AI_TURN_WAITING_FOR_ANSWER) :
    (handleAITurn s oracle).1.lastAIAnalysis.map (fun e => e.id) =
      s.aiRemainingChars.map (fun c => c.id) := by
  rw [handleAITurn_eq_loop s oracle a b rest hst hrem] at hsucc ⊢
  rcases aiTurnLoop_stored oracle MAX_AI_RETRIES
      { s with isAIFinalGuess := false } 1 none with h | h | ⟨k, rk, r, hok, _, hana, _⟩
  · rw [h.2] at hsucc
    simp only at hsucc
    rw [hst] at hsucc
    rcases hsucc with hc | hc <;> cases hc
  · rw [h.2] at hsucc
    rcases hsucc with hc | hc <;> cases hc
  · rw [hana]
    simpa using hor k rk r hok

/-- Oracle for the C3 amended witness: every response carries exactly one
entry per candidate of `c3Session`, non-degenerate. -/
def c3WitnessOracle : Nat → Option String → Except String AIQuestionAndAnalysis :=
  fun _ _ =>
    Except.ok
      { question := "Is your character wearing glasses?"
        analysis :=
          [{ id := "alex", name := "Alex", has_feature := true, reasoning := "" },
           { id := "bella", name := "Bella", has_feature := false, reasoning := "" },
           { id := "cid", name := "Cid", has_feature := false, reasoning := "" }] }

/-- Witness for the amended C3 at a concrete id-complete oracle. -/
theorem lastAIAnalysis_entries_amended_witness :
    c3Session.gameState = GameState.AI_TURN ∧
    c3Session.aiRemainingChars = alex :: bella :: [cid] ∧
    (∀ k rk r, c3WitnessOracle k rk = Except.ok r →
      r.analysis.map (fun e => e.id) = c3Session.aiRemainingChars.map (fun c => c.id)) ∧
    ((handleAITurn c3Session c3WitnessOracle).1.gameState =
        GameState.PLAYER_REVIEWING_AI_ANALYSIS ∨
     (handleAITurn c3Session c3WitnessOracle).1.gameState =
        GameState.AI_TURN_WAITING_FOR_ANSWER) ∧
    (handleAITurn c3Session c3WitnessOracle).1.lastAIAnalysis.map (fun e => e.id) =
      c3Session.aiRemainingChars.map (fun c => c.id) :=
  ⟨rfl, rfl,
    fun k rk r h => by injection h with h2; rw [← h2]; decide,
    by decide,
    lastAIAnalysis_entries_amended c3Session c3WitnessOracle alex bella [cid] rfl rfl
      (fun k rk r h => by injection h with h2; rw [← h2]; decide) (by decide)⟩

end GuessWho
